/-
Verification of the idemixgen provisioning tool
(src/common/tools/idemixgen/idemixgen.go).

The tool is a single-shot CLI with three commands: `ca-keygen`,
`signerconfig` and `version`.  Its observable behaviour is a sequence of
filesystem operations (stat / mkdir / write file / read file) driven by the
results of two external cryptographic collaborators
(idemixca.GenerateIssuerKey and idemixca.GenerateSignerConfig) and of the
protobuf codec for the issuer public key.

We embed the tool shallowly:

* the filesystem is an association list from paths (lists of path
  components) to entries (directories or files, each carrying the numeric
  permission mode it was created with), together with a set of paths on
  which `os.Stat` (and any other syscall) fails with a permission error;
* each Go filesystem call becomes a pure Lean function on this state;
* the external collaborators are passed in as explicit parameters, exactly
  as the source consumes their results;
* each command becomes a function from a prior state to an `Outcome`
  (optional fatal error plus the state at process exit), mirroring the
  source's fail-fast `handleError` control flow: the first error aborts the
  run, leaving the state mutations performed so far in place.

Constants of the repository's `msp` package (directory and file names) and
the `idemix` key types are not part of the provided source tree; they are
modelled from the spec where marked.
-/
import Mathlib

/-- A filesystem path, as a list of path components.  `filepath.Join` in the
source corresponds to list append. -/
abbrev FPath := List String

/-- A filesystem entry: a directory or a regular file, each carrying the
numeric permission mode it holds. -/
inductive Entry
  | dir (perm : Nat)
  | file (perm : Nat) (contents : List Nat)
deriving DecidableEq

/-- The filesystem state: an association list from paths to entries (later
bindings shadow earlier ones; operations only ever cons fresh bindings), plus
the set of paths on which syscalls fail with a permission error. -/
structure World where
  entries : List (FPath × Entry)
  denied : List FPath
deriving DecidableEq

/-- Look a path up in an association list of entries (first match wins). -/
def lookupIn : List (FPath × Entry) → FPath → Option Entry
  | [], _ => none
  | (q, e) :: rest, p => if q = p then some e else lookupIn rest p

/-- The entry currently visible at a path. -/
def lookupEntry (w : World) (p : FPath) : Option Entry :=
  lookupIn w.entries p

/-- Result of `os.Stat`: success, not-exists error, or permission error. -/
inductive StatResult
  | ok
  | enoent
  | eacces
deriving DecidableEq

/-- `os.Stat`: errors with a permission error on denied paths, succeeds on
any existing entry (file or directory), errors with not-exists otherwise. -/
def stat (w : World) (p : FPath) : StatResult :=
  if w.denied.contains p then .eacces
  else match lookupEntry w p with
    | some _ => .ok
    | none => .enoent

/-- The error taxonomy of the tool, following the spec's names.  In the
source every error is an ordinary Go error value carrying a message; the
constructor records which code path produced it. -/
inductive Err
  | alreadyProvisioned (msg : String)
  | ioError (msg : String)
  | generatorError (msg : String)
  | missingKeyMaterial (msg : String)
  | malformedKey (msg : String)
deriving DecidableEq

/-- The message carried by an error (what `fmt.Println(err)` prints). -/
def Err.message : Err → String
  | .alreadyProvisioned m => m
  | .ioError m => m
  | .generatorError m => m
  | .missingKeyMaterial m => m
  | .malformedKey m => m

/-- Whether an optional error is an `AlreadyProvisionedError`. -/
def isAlreadyProvisionedErr : Option Err → Bool
  | some (.alreadyProvisioned _) => true
  | _ => false

/-- Whether an optional error is a `MissingKeyMaterialError`. -/
def isMissingKeyErr : Option Err → Bool
  | some (.missingKeyMaterial _) => true
  | _ => false

/-- Whether the entry at a path is a directory. -/
def isDirAt (w : World) (p : FPath) : Bool :=
  match lookupEntry w p with
  | some (.dir _) => true
  | _ => false

/-- Whether the parent of a path exists as a directory (a single-component
path lives in the current working directory, which always exists). -/
def parentOk (w : World) (p : FPath) : Bool :=
  p.length == 1 || isDirAt w p.dropLast

/-- `os.Mkdir(path, perm)`: fails on a denied path, on an existing entry, or
on a missing parent directory; otherwise records a fresh directory entry. -/
def mkdirFS (w : World) (p : FPath) (perm : Nat) : Except Err World :=
  if w.denied.contains p then .error (.ioError "mkdir: permission denied")
  else if (lookupEntry w p).isSome then .error (.ioError "mkdir: file exists")
  else if parentOk w p then .ok ⟨(p, .dir perm) :: w.entries, w.denied⟩
  else .error (.ioError "mkdir: no such file or directory")

/-- `ioutil.WriteFile(path, contents, perm)`: fails on a denied path or a
directory; truncates and rewrites an existing file, keeping its mode;
otherwise creates the file with the given mode, provided the parent
directory exists. -/
def writeFileFS (w : World) (p : FPath) (contents : List Nat) (perm : Nat) :
    Except Err World :=
  if w.denied.contains p then .error (.ioError "open: permission denied")
  else match lookupEntry w p with
    | some (.dir _) => .error (.ioError "open: is a directory")
    | some (.file oldPerm _) => .ok ⟨(p, .file oldPerm contents) :: w.entries, w.denied⟩
    | none =>
      if parentOk w p then .ok ⟨(p, .file perm contents) :: w.entries, w.denied⟩
      else .error (.ioError "open: no such file or directory")

/-- `ioutil.ReadFile(path)`: fails on a denied path, a directory, or a
missing entry; otherwise returns the file's bytes. -/
def readFileFS (w : World) (p : FPath) : Except String (List Nat) :=
  if w.denied.contains p then .error "permission denied"
  else match lookupEntry w p with
    | some (.file _ c) => .ok c
    | some (.dir _) => .error "is a directory"
    | none => .error "no such file or directory"

/-- `IdemixDirIssuer = "ca"` (source constant). -/
def IdemixDirIssuer : FPath := ["ca"]

/-- `IdemixConfigIssuerSecretKey = "IssuerSecretKey"` (source constant). -/
def IdemixConfigIssuerSecretKey : String := "IssuerSecretKey"

/-- Modelled from the spec: the `msp` package constant naming the MSP root
directory; the documented layout places issuer public material under `msp`. -/
def IdemixConfigDirMsp : FPath := ["msp"]

/-- Modelled from the spec: the `msp` package constant naming the issuer
public key file, `IssuerPublicKey` in the documented layout. -/
def IdemixConfigFileIssuerPublicKey : String := "IssuerPublicKey"

/-- Modelled from the spec: the `msp` package constant naming the per-signer
directory nested under the MSP root (`msp/signer` in the documented layout). -/
def IdemixConfigDirUser : FPath := ["msp", "signer"]

/-- Modelled from the spec: the `msp` package constant naming the signer
config file, `SignerConfig` in the documented layout. -/
def IdemixConfigFileSigner : String := "SignerConfig"

/-- Path of the issuer secret key file, `ca/IssuerSecretKey`. -/
def iskFilePath : FPath := IdemixDirIssuer ++ [IdemixConfigIssuerSecretKey]

/-- Path of the issuer public key file under the issuer root,
`ca/IssuerPublicKey`. -/
def ipkFilePath : FPath := IdemixDirIssuer ++ [IdemixConfigFileIssuerPublicKey]

/-- Path of the issuer public key copy under the MSP root,
`msp/IssuerPublicKey`. -/
def mspIpkFilePath : FPath := IdemixConfigDirMsp ++ [IdemixConfigFileIssuerPublicKey]

/-- Path of the signer config file, `msp/signer/SignerConfig`. -/
def signerFilePath : FPath := IdemixConfigDirUser ++ [IdemixConfigFileSigner]

/-- Modelled from the spec: `idemix.IssuerPublicKey`, the structured public
key record, treated as an opaque serializable blob and represented by its
serialized form. -/
structure IssuerPublicKey where
  serialized : List Nat
deriving DecidableEq

/-- Modelled from the spec: `idemix.IssuerKey`, the pair of the opaque
secret component and the structured public component. -/
structure IssuerKey where
  isk : List Nat
  ipk : IssuerPublicKey
deriving DecidableEq

/-- `readIssuerKey`: reads the secret key file and the issuer-root public
key file, wrapping any open failure; deserializes the public key bytes with
the protobuf codec (passed in as the external collaborator it is); returns
the reassembled pair.  The source exits through `handleError` at the first
failure; here that is the returned error. -/
def readIssuerKey (unmarshal : List Nat → Except String IssuerPublicKey)
    (w : World) : Except Err IssuerKey :=
  match readFileFS w iskFilePath with
  | .error e => .error (.missingKeyMaterial ("failed to open issuer secret key file: " ++ e))
  | .ok isk =>
    match readFileFS w ipkFilePath with
    | .error e => .error (.missingKeyMaterial ("failed to open issuer public key file: " ++ e))
    | .ok ipkBytes =>
      match unmarshal ipkBytes with
      | .error e => .error (.malformedKey e)
      | .ok ipk => .ok ⟨isk, ipk⟩

/-- `checkDirectoryNotExists`: stats the path and fails (through
`handleError`) with the given message exactly when the stat succeeds. -/
def checkDirectoryNotExists (w : World) (p : FPath) (errorMessage : String) :
    Option Err :=
  if stat w p = .ok then some (.alreadyProvisioned errorMessage) else none

/-- The state a command run ends in: the fatal error that stopped it (if
any) and the filesystem state at process exit. -/
structure Outcome where
  err : Option Err
  world : World
deriving DecidableEq

/-- Sequencing of a fallible filesystem operation in a run: on failure the
run stops with the state it had before the failing operation completed. -/
def step (w : World) (r : Except Err World) (k : World → Outcome) : Outcome :=
  match r with
  | .error e => ⟨some e, w⟩
  | .ok w' => k w'

/-- The `ca-keygen` command.  `genResult` is the result of the external
`idemixca.GenerateIssuerKey()` call (secret key bytes and serialized public
key bytes), which the source invokes before anything else.  Then the two
root directories are checked absent, created with mode `0o770`, and the
three key files are written with mode `0o640`. -/
def caKeygenCmd (genResult : Except String (List Nat × List Nat)) (w : World) :
    Outcome :=
  match genResult with
  | .error e => ⟨some (.generatorError e), w⟩
  | .ok (isk, ipk) =>
    match checkDirectoryNotExists w IdemixDirIssuer "Directory ca already exists" with
    | some e => ⟨some e, w⟩
    | none =>
      match checkDirectoryNotExists w IdemixConfigDirMsp "Directory msp already exists" with
      | some e => ⟨some e, w⟩
      | none =>
        step w (mkdirFS w IdemixDirIssuer 0o770) fun w1 =>
        step w1 (mkdirFS w1 IdemixConfigDirMsp 0o770) fun w2 =>
        step w2 (writeFileFS w2 iskFilePath isk 0o640) fun w3 =>
        step w3 (writeFileFS w3 ipkFilePath ipk 0o640) fun w4 =>
        step w4 (writeFileFS w4 mspIpkFilePath ipk 0o640) fun w5 =>
        ⟨none, w5⟩

/-- The `signerconfig` command.  The source first evaluates
`readIssuerKey()` and hands the result to the external
`idemixca.GenerateSignerConfig` collaborator; only then does it check that
the per-signer directory is absent, create it with mode `0o770`, and write
the config with mode `0o640`. -/
def signerconfigCmd (unmarshal : List Nat → Except String IssuerPublicKey)
    (genSignerConfig : Bool → String → IssuerKey → Except String (List Nat))
    (isAdmin : Bool) (orgUnit : String) (w : World) : Outcome :=
  match readIssuerKey unmarshal w with
  | .error e => ⟨some e, w⟩
  | .ok key =>
    match genSignerConfig isAdmin orgUnit key with
    | .error e => ⟨some (.generatorError e), w⟩
    | .ok config =>
      match checkDirectoryNotExists w IdemixConfigDirUser
          "This MSP config already contains a directory \"msp/signer\"" with
      | some e => ⟨some e, w⟩
      | none =>
        step w (mkdirFS w IdemixConfigDirUser 0o770) fun w1 =>
        step w1 (writeFileFS w1 signerFilePath config 0o640) fun w2 =>
        ⟨none, w2⟩

/-- Modelled from the spec: `metadata.GetVersionInfo()`, a static version
descriptor string. -/
def getVersionInfo : String := "idemixgen 1.0.0"

/-- The external collaborators a process run consumes, passed to the
dispatcher exactly as the source consumes their results. -/
structure Collaborators where
  generateIssuerKey : Except String (List Nat × List Nat)
  unmarshal : List Nat → Except String IssuerPublicKey
  generateSignerConfig : Bool → String → IssuerKey → Except String (List Nat)

/-- The command selected on the command line. -/
inductive Command
  | caKeygen
  | signerconfig (isAdmin : Bool) (orgUnit : String)
  | version

/-- What a whole process run produces: the final filesystem state, the exit
status, and the lines printed to standard output. -/
structure RunResult where
  world : World
  exitCode : Nat
  stdout : List String
deriving DecidableEq

/-- `handleError` semantics lifted to a finished workflow: a fatal error is
printed and the process exits with status 1; otherwise it exits with 0. -/
def outcomeRun (o : Outcome) : RunResult :=
  match o.err with
  | some e => ⟨o.world, 1, [e.message]⟩
  | none => ⟨o.world, 0, []⟩

/-- The `main` dispatcher: exactly one command runs per process invocation;
`version` prints the version string and touches nothing. -/
def mainRun (c : Collaborators) : Command → World → RunResult
  | .caKeygen, w => outcomeRun (caKeygenCmd c.generateIssuerKey w)
  | .signerconfig a ou, w =>
      outcomeRun (signerconfigCmd c.unmarshal c.generateSignerConfig a ou w)
  | .version, w => ⟨w, 0, [getVersionInfo]⟩

/-! ### Helper lemmas about the filesystem model -/

theorem lookupEntry_cons (q : FPath) (e : Entry) (l : List (FPath × Entry))
    (d : List FPath) (p : FPath) :
    lookupEntry ⟨(q, e) :: l, d⟩ p = if q = p then some e else lookupEntry ⟨l, d⟩ p := rfl

theorem lookupIn_mem (l : List (FPath × Entry)) (p : FPath) (e : Entry)
    (h : lookupIn l p = some e) : (p, e) ∈ l := by
  induction l with
  | nil => cases h
  | cons q rest ih =>
    obtain ⟨qp, qe⟩ := q
    rw [lookupIn] at h
    split at h
    next heq =>
      cases h
      exact heq ▸ List.mem_cons_self _ _
    next heq => exact List.mem_cons_of_mem _ (ih h)

theorem mkdirFS_ok (w : World) (p : FPath) (perm : Nat) (w' : World)
    (h : mkdirFS w p perm = .ok w') :
    w.denied.contains p = false ∧ lookupEntry w p = none ∧
      w' = ⟨(p, .dir perm) :: w.entries, w.denied⟩ := by
  unfold mkdirFS at h
  split at h
  next hc => simp at h
  next hc =>
    split at h
    next hs => simp at h
    next hs =>
      split at h
      next hp =>
        refine ⟨by simpa using hc, by simpa using hs, ?_⟩
        injection h with h
        exact h.symm
      next hp => simp at h

theorem writeFileFS_ok (w : World) (p : FPath) (c : List Nat) (perm : Nat) (w' : World)
    (h : writeFileFS w p c perm = .ok w') :
    ∃ q, w' = ⟨(p, .file q c) :: w.entries, w.denied⟩ ∧
      w.denied.contains p = false ∧
      ((q = perm ∧ lookupEntry w p = none) ∨
        ∃ old, lookupEntry w p = some (.file q old)) := by
  unfold writeFileFS at h
  split at h
  next hc => simp at h
  next hc =>
    split at h
    next hd => simp at h
    next oldPerm old hf =>
      injection h with h
      exact ⟨oldPerm, h.symm, by simpa using hc, Or.inr ⟨old, hf⟩⟩
    next hn =>
      split at h
      next hp =>
        injection h with h
        exact ⟨perm, h.symm, by simpa using hc, Or.inl ⟨rfl, hn⟩⟩
      next hp => simp at h

theorem stat_ok_iff (w : World) (p : FPath) :
    stat w p = .ok ↔
      (w.denied.contains p = false ∧ (lookupEntry w p).isSome = true) := by
  unfold stat
  split
  next hc =>
    constructor
    · intro h; cases h
    · rintro ⟨hf, -⟩
      rw [hc] at hf
      cases hf
  next hc =>
    rw [Bool.not_eq_true] at hc
    have hm : p ∉ w.denied := by simpa using hc
    split
    next e he => simp [hm, he]
    next he => simp [he]

theorem checkDir_none_of_stat (w : World) (p : FPath) (m : String)
    (h : stat w p ≠ .ok) : checkDirectoryNotExists w p m = none := by
  unfold checkDirectoryNotExists
  rw [if_neg h]

theorem checkDir_some_of_stat (w : World) (p : FPath) (m : String)
    (h : stat w p = .ok) :
    checkDirectoryNotExists w p m = some (.alreadyProvisioned m) := by
  unfold checkDirectoryNotExists
  rw [if_pos h]

theorem lookupEntry_skip (q : FPath) (e : Entry) (l : List (FPath × Entry))
    (d : List FPath) (p : FPath) (hne : q ≠ p) :
    lookupEntry ⟨(q, e) :: l, d⟩ p = lookupEntry ⟨l, d⟩ p := by
  rw [lookupEntry_cons, if_neg hne]

theorem caKeygen_success_shape (isk ipk : List Nat) (w w' : World)
    (h : caKeygenCmd (.ok (isk, ipk)) w = ⟨none, w'⟩) :
    ∃ p3 p4 p5,
      w'.entries = (mspIpkFilePath, .file p5 ipk) :: (ipkFilePath, .file p4 ipk) ::
          (iskFilePath, .file p3 isk) :: (IdemixConfigDirMsp, .dir 0o770) ::
          (IdemixDirIssuer, .dir 0o770) :: w.entries ∧
      w'.denied = w.denied ∧
      lookupEntry w IdemixDirIssuer = none ∧
      lookupEntry w IdemixConfigDirMsp = none ∧
      w.denied.contains IdemixDirIssuer = false ∧
      w.denied.contains IdemixConfigDirMsp = false ∧
      w.denied.contains iskFilePath = false ∧
      w.denied.contains ipkFilePath = false ∧
      w.denied.contains mspIpkFilePath = false ∧
      ((p3 = 0o640 ∧ lookupEntry w iskFilePath = none) ∨
        ∃ c, lookupEntry w iskFilePath = some (.file p3 c)) ∧
      ((p4 = 0o640 ∧ lookupEntry w ipkFilePath = none) ∨
        ∃ c, lookupEntry w ipkFilePath = some (.file p4 c)) ∧
      ((p5 = 0o640 ∧ lookupEntry w mspIpkFilePath = none) ∨
        ∃ c, lookupEntry w mspIpkFilePath = some (.file p5 c)) := by
  have ne_ca_msp : IdemixDirIssuer ≠ IdemixConfigDirMsp := by decide
  have ne_ca_isk : IdemixDirIssuer ≠ iskFilePath := by decide
  have ne_msp_isk : IdemixConfigDirMsp ≠ iskFilePath := by decide
  have ne_ca_ipk : IdemixDirIssuer ≠ ipkFilePath := by decide
  have ne_msp_ipk : IdemixConfigDirMsp ≠ ipkFilePath := by decide
  have ne_isk_ipk : iskFilePath ≠ ipkFilePath := by decide
  have ne_ca_mipk : IdemixDirIssuer ≠ mspIpkFilePath := by decide
  have ne_msp_mipk : IdemixConfigDirMsp ≠ mspIpkFilePath := by decide
  have ne_isk_mipk : iskFilePath ≠ mspIpkFilePath := by decide
  have ne_ipk_mipk : ipkFilePath ≠ mspIpkFilePath := by decide
  simp only [caKeygenCmd, step] at h
  split at h
  next e hchk1 => simp at h
  next hchk1 =>
    split at h
    next e hchk2 => simp at h
    next hchk2 =>
      split at h
      next e heq1 => simp at h
      next w1 heq1 =>
        obtain ⟨hc1, hl1, e1⟩ := mkdirFS_ok _ _ _ _ heq1
        subst e1
        split at h
        next e heq2 => simp at h
        next w2 heq2 =>
          obtain ⟨hc2, hl2, e2⟩ := mkdirFS_ok _ _ _ _ heq2
          subst e2
          rw [lookupEntry_skip _ _ _ _ _ ne_ca_msp] at hl2
          split at h
          next e heq3 => simp at h
          next w3 heq3 =>
            obtain ⟨p3, e3, hc3, hd3⟩ := writeFileFS_ok _ _ _ _ _ heq3
            subst e3
            rw [lookupEntry_skip _ _ _ _ _ ne_msp_isk,
              lookupEntry_skip _ _ _ _ _ ne_ca_isk] at hd3
            split at h
            next e heq4 => simp at h
            next w4 heq4 =>
              obtain ⟨p4, e4, hc4, hd4⟩ := writeFileFS_ok _ _ _ _ _ heq4
              subst e4
              rw [lookupEntry_skip _ _ _ _ _ ne_isk_ipk,
                lookupEntry_skip _ _ _ _ _ ne_msp_ipk,
                lookupEntry_skip _ _ _ _ _ ne_ca_ipk] at hd4
              split at h
              next e heq5 => simp at h
              next w5 heq5 =>
                obtain ⟨p5, e5, hc5, hd5⟩ := writeFileFS_ok _ _ _ _ _ heq5
                subst e5
                rw [lookupEntry_skip _ _ _ _ _ ne_ipk_mipk,
                  lookupEntry_skip _ _ _ _ _ ne_isk_mipk,
                  lookupEntry_skip _ _ _ _ _ ne_msp_mipk,
                  lookupEntry_skip _ _ _ _ _ ne_ca_mipk] at hd5
                injection h with hne hw
                subst hw
                exact ⟨p3, p4, p5, rfl, rfl, hl1, hl2, hc1, hc2, hc3, hc4, hc5,
                  hd3, hd4, hd5⟩

theorem signerconfig_success_shape
    (um : List Nat → Except String IssuerPublicKey)
    (gen : Bool → String → IssuerKey → Except String (List Nat))
    (a : Bool) (ou : String) (w w' : World)
    (h : signerconfigCmd um gen a ou w = ⟨none, w'⟩) :
    ∃ key config q,
      readIssuerKey um w = .ok key ∧
      gen a ou key = .ok config ∧
      lookupEntry w IdemixConfigDirUser = none ∧
      w.denied.contains IdemixConfigDirUser = false ∧
      w.denied.contains signerFilePath = false ∧
      w' = ⟨(signerFilePath, .file q config) ::
        (IdemixConfigDirUser, .dir 0o770) :: w.entries, w.denied⟩ ∧
      ((q = 0o640 ∧ lookupEntry w signerFilePath = none) ∨
        ∃ old, lookupEntry w signerFilePath = some (.file q old)) := by
  have ne_user_signer : IdemixConfigDirUser ≠ signerFilePath := by decide
  simp only [signerconfigCmd, step] at h
  split at h
  next e hread => simp at h
  next key hread =>
    split at h
    next e hgen => simp at h
    next config hgen =>
      split at h
      next e hchk => simp at h
      next hchk =>
        split at h
        next e heq1 => simp at h
        next w1 heq1 =>
          obtain ⟨hc1, hl1, e1⟩ := mkdirFS_ok _ _ _ _ heq1
          subst e1
          split at h
          next e heq2 => simp at h
          next w2 heq2 =>
            obtain ⟨q, e2, hc2, hd2⟩ := writeFileFS_ok _ _ _ _ _ heq2
            subst e2
            rw [lookupEntry_skip _ _ _ _ _ ne_user_signer] at hd2
            injection h with hne hw
            subst hw
            exact ⟨key, config, q, hread, hgen, hl1, hc1, hc2, rfl, hd2⟩

/-- Whether every entry of the state lives either at top level or directly
under an existing directory (true of every reachable real filesystem). -/
def wellFormedW (w : World) : Bool :=
  w.entries.all (fun q => q.1.length == 1 || isDirAt w q.1.dropLast)

theorem wellFormed_lookup (w : World) (p : FPath) (e : Entry)
    (hwf : wellFormedW w = true) (h : lookupEntry w p = some e) :
    p.length = 1 ∨ isDirAt w p.dropLast = true := by
  have hm := lookupIn_mem w.entries p e h
  have hall := List.all_eq_true.mp hwf _ hm
  simpa using hall

theorem wellFormed_child_none (w : World) (p : FPath)
    (hwf : wellFormedW w = true) (hlen : p.length ≠ 1)
    (hpar : isDirAt w p.dropLast = false) :
    lookupEntry w p = none := by
  cases hl : lookupEntry w p with
  | none => rfl
  | some e =>
    rcases wellFormed_lookup w p e hwf hl with h1 | h2
    · exact absurd h1 hlen
    · rw [hpar] at h2
      cases h2

theorem caKeygen_fresh_build (isk ipk : List Nat) (w w' : World)
    (hwf : wellFormedW w = true)
    (hca : lookupEntry w IdemixDirIssuer = none)
    (hmsp : lookupEntry w IdemixConfigDirMsp = none)
    (h : caKeygenCmd (.ok (isk, ipk)) w = ⟨none, w'⟩) :
    w' = ⟨(mspIpkFilePath, .file 0o640 ipk) :: (ipkFilePath, .file 0o640 ipk) ::
        (iskFilePath, .file 0o640 isk) :: (IdemixConfigDirMsp, .dir 0o770) ::
        (IdemixDirIssuer, .dir 0o770) :: w.entries, w.denied⟩ := by
  obtain ⟨p3, p4, p5, he, hdd, hl1, hl2, hc1, hc2, hc3, hc4, hc5, h3, h4, h5⟩ :=
    caKeygen_success_shape isk ipk w w' h
  have hisk : lookupEntry w iskFilePath = none := by
    apply wellFormed_child_none w _ hwf (by decide)
    have hdl : iskFilePath.dropLast = IdemixDirIssuer := by decide
    rw [hdl]
    simp [isDirAt, hca]
  have hipk : lookupEntry w ipkFilePath = none := by
    apply wellFormed_child_none w _ hwf (by decide)
    have hdl : ipkFilePath.dropLast = IdemixDirIssuer := by decide
    rw [hdl]
    simp [isDirAt, hca]
  have hmipk : lookupEntry w mspIpkFilePath = none := by
    apply wellFormed_child_none w _ hwf (by decide)
    have hdl : mspIpkFilePath.dropLast = IdemixConfigDirMsp := by decide
    rw [hdl]
    simp [isDirAt, hmsp]
  have hp3 : p3 = 0o640 := by
    rcases h3 with ⟨hp, -⟩ | ⟨c, hc⟩
    · exact hp
    · rw [hisk] at hc; cases hc
  have hp4 : p4 = 0o640 := by
    rcases h4 with ⟨hp, -⟩ | ⟨c, hc⟩
    · exact hp
    · rw [hipk] at hc; cases hc
  have hp5 : p5 = 0o640 := by
    rcases h5 with ⟨hp, -⟩ | ⟨c, hc⟩
    · exact hp
    · rw [hmipk] at hc; cases hc
  subst hp3; subst hp4; subst hp5
  calc w' = ⟨w'.entries, w'.denied⟩ := rfl
    _ = _ := by rw [he, hdd]

/-- C1: for every prior filesystem state in which the issuer root `ca` or the
MSP root `msp` already exists (and is visible to `os.Stat`), `ca-keygen`
fails with an `AlreadyProvisionedError` and performs no directory creation or
file write, leaving the state exactly as it was; in particular, a second
`ca-keygen` run after any successful one always fails this way. -/
theorem C1_caKeygen_already_provisioned :
    (∀ (w : World) (isk ipk : List Nat),
      w.denied.contains IdemixDirIssuer = false →
      w.denied.contains IdemixConfigDirMsp = false →
      ((lookupEntry w IdemixDirIssuer).isSome = true ∨
        (lookupEntry w IdemixConfigDirMsp).isSome = true) →
      isAlreadyProvisionedErr (caKeygenCmd (.ok (isk, ipk)) w).err = true ∧
        (caKeygenCmd (.ok (isk, ipk)) w).world = w) ∧
    (∀ (w w' : World) (isk ipk isk2 ipk2 : List Nat),
      caKeygenCmd (.ok (isk, ipk)) w = ⟨none, w'⟩ →
      isAlreadyProvisionedErr (caKeygenCmd (.ok (isk2, ipk2)) w').err = true ∧
        (caKeygenCmd (.ok (isk2, ipk2)) w').world = w') := by
  constructor
  · intro w isk ipk hd1 hd2 hex
    rcases hex with h1 | h2
    · have hs : stat w IdemixDirIssuer = .ok := (stat_ok_iff _ _).mpr ⟨hd1, h1⟩
      have hchk := checkDir_some_of_stat w IdemixDirIssuer
        "Directory ca already exists" hs
      simp only [caKeygenCmd, hchk]
      exact ⟨rfl, trivial⟩
    · by_cases hca : stat w IdemixDirIssuer = .ok
      · have hchk := checkDir_some_of_stat w IdemixDirIssuer
          "Directory ca already exists" hca
        simp only [caKeygenCmd, hchk]
        exact ⟨rfl, trivial⟩
      · have hchk1 := checkDir_none_of_stat w IdemixDirIssuer
          "Directory ca already exists" hca
        have hs2 : stat w IdemixConfigDirMsp = .ok := (stat_ok_iff _ _).mpr ⟨hd2, h2⟩
        have hchk2 := checkDir_some_of_stat w IdemixConfigDirMsp
          "Directory msp already exists" hs2
        simp only [caKeygenCmd, hchk1, hchk2]
        exact ⟨rfl, trivial⟩
  · intro w w' isk ipk isk2 ipk2 h
    obtain ⟨p3, p4, p5, he, hdd, hl1, hl2, hc1, hc2, hc3, hc4, hc5, h3, h4, h5⟩ :=
      caKeygen_success_shape isk ipk w w' h
    have ne_mipk_ca : mspIpkFilePath ≠ IdemixDirIssuer := by decide
    have ne_ipk_ca : ipkFilePath ≠ IdemixDirIssuer := by decide
    have ne_isk_ca : iskFilePath ≠ IdemixDirIssuer := by decide
    have ne_msp_ca : IdemixConfigDirMsp ≠ IdemixDirIssuer := by decide
    have wEq : w' = ⟨(mspIpkFilePath, .file p5 ipk) :: (ipkFilePath, .file p4 ipk) ::
        (iskFilePath, .file p3 isk) :: (IdemixConfigDirMsp, .dir 0o770) ::
        (IdemixDirIssuer, .dir 0o770) :: w.entries, w.denied⟩ := by
      calc w' = ⟨w'.entries, w'.denied⟩ := rfl
        _ = _ := by rw [he, hdd]
    rw [wEq]
    have hlca : lookupEntry ⟨(mspIpkFilePath, .file p5 ipk) :: (ipkFilePath, .file p4 ipk) ::
        (iskFilePath, .file p3 isk) :: (IdemixConfigDirMsp, .dir 0o770) ::
        (IdemixDirIssuer, .dir 0o770) :: w.entries, w.denied⟩ IdemixDirIssuer =
        some (.dir 0o770) := by
      rw [lookupEntry_skip _ _ _ _ _ ne_mipk_ca, lookupEntry_skip _ _ _ _ _ ne_ipk_ca,
        lookupEntry_skip _ _ _ _ _ ne_isk_ca, lookupEntry_skip _ _ _ _ _ ne_msp_ca,
        lookupEntry_cons, if_pos rfl]
    have hs : stat ⟨(mspIpkFilePath, .file p5 ipk) :: (ipkFilePath, .file p4 ipk) ::
        (iskFilePath, .file p3 isk) :: (IdemixConfigDirMsp, .dir 0o770) ::
        (IdemixDirIssuer, .dir 0o770) :: w.entries, w.denied⟩ IdemixDirIssuer = .ok := by
      apply (stat_ok_iff _ _).mpr
      exact ⟨hc1, by rw [hlca]; rfl⟩
    have hchk := checkDir_some_of_stat _ IdemixDirIssuer
      "Directory ca already exists" hs
    simp only [caKeygenCmd, hchk]
    exact ⟨rfl, trivial⟩

/-- A prior state in which the issuer root directory already exists. -/
def wCaExists : World := ⟨[(IdemixDirIssuer, .dir 0o770)], []⟩

/-- The state produced by a successful `ca-keygen` run from the empty state
with generator output `([1], [2])`. -/
def wProvisioned : World :=
  ⟨[(mspIpkFilePath, .file 0o640 [2]), (ipkFilePath, .file 0o640 [2]),
    (iskFilePath, .file 0o640 [1]), (IdemixConfigDirMsp, .dir 0o770),
    (IdemixDirIssuer, .dir 0o770)], []⟩

/-- Witness for C1 at concrete inputs: a state with `ca` present, and a
state reached by an actual successful run. -/
theorem C1_caKeygen_already_provisioned_witness :
    (isAlreadyProvisionedErr (caKeygenCmd (.ok ([3], [4])) wCaExists).err = true ∧
      (caKeygenCmd (.ok ([3], [4])) wCaExists).world = wCaExists) ∧
    (caKeygenCmd (.ok ([1], [2])) ⟨[], []⟩ = ⟨none, wProvisioned⟩ ∧
      isAlreadyProvisionedErr (caKeygenCmd (.ok ([5], [6])) wProvisioned).err = true ∧
      (caKeygenCmd (.ok ([5], [6])) wProvisioned).world = wProvisioned) :=
  ⟨C1_caKeygen_already_provisioned.1 wCaExists [3] [4] (by decide) (by decide)
      (Or.inl (by decide)),
    by decide,
    C1_caKeygen_already_provisioned.2 ⟨[], []⟩ wProvisioned [1] [2] [5] [6] (by decide)⟩

/-- A provisioned state in which the per-signer directory also exists. -/
def wSignerExists : World :=
  ⟨(IdemixConfigDirUser, .dir 0o770) :: wProvisioned.entries, []⟩

/-- Counterexample to C2 as stated: in a state where the per-signer
directory exists and the key material is readable, the run consults the
external signer-config generator (a failing generator's error becomes the
run's error), so it does not fail with `AlreadyProvisionedError` and the
generator is not "never invoked". -/
theorem C2_counterexample :
    (lookupEntry wSignerExists IdemixConfigDirUser).isSome = true ∧
    signerconfigCmd (fun b => .ok ⟨b⟩) (fun _ _ _ => .error "generator ran")
        true "ou" wSignerExists =
      ⟨some (.generatorError "generator ran"), wSignerExists⟩ ∧
    isAlreadyProvisionedErr (signerconfigCmd (fun b => .ok ⟨b⟩)
        (fun _ _ _ => .error "generator ran") true "ou" wSignerExists).err = false := by
  refine ⟨by decide, by decide, by decide⟩

/-- C2 amended: when the per-signer MSP subdirectory already exists (and is
visible to `os.Stat`), `signerconfig` does fail with
`AlreadyProvisionedError` and leaves the state unchanged — provided the
issuer key material was readable and the external generator succeeded; but
the generator IS invoked before the existence check, so when it fails the
run reports the generator's error instead, still leaving the state
unchanged. -/
theorem C2_signerconfig_amended :
    (∀ (um : List Nat → Except String IssuerPublicKey)
        (gen : Bool → String → IssuerKey → Except String (List Nat))
        (a : Bool) (ou : String) (w : World) (key : IssuerKey) (config : List Nat),
      readIssuerKey um w = .ok key →
      gen a ou key = .ok config →
      w.denied.contains IdemixConfigDirUser = false →
      (lookupEntry w IdemixConfigDirUser).isSome = true →
      isAlreadyProvisionedErr (signerconfigCmd um gen a ou w).err = true ∧
        (signerconfigCmd um gen a ou w).world = w) ∧
    (∀ (um : List Nat → Except String IssuerPublicKey)
        (gen : Bool → String → IssuerKey → Except String (List Nat))
        (a : Bool) (ou : String) (w : World) (key : IssuerKey) (m : String),
      readIssuerKey um w = .ok key →
      gen a ou key = .error m →
      signerconfigCmd um gen a ou w = ⟨some (.generatorError m), w⟩) := by
  constructor
  · intro um gen a ou w key config hread hgen hd hex
    have hs : stat w IdemixConfigDirUser = .ok := (stat_ok_iff _ _).mpr ⟨hd, hex⟩
    have hchk := checkDir_some_of_stat w IdemixConfigDirUser
      "This MSP config already contains a directory \"msp/signer\"" hs
    simp only [signerconfigCmd, hread, hgen, hchk]
    exact ⟨rfl, trivial⟩
  · intro um gen a ou w key m hread hgen
    simp only [signerconfigCmd, hread, hgen]

/-- Witness for the amended C2 at concrete inputs. -/
theorem C2_signerconfig_amended_witness :
    (isAlreadyProvisionedErr (signerconfigCmd (fun b => .ok ⟨b⟩)
        (fun _ _ _ => .ok [9]) true "ou" wSignerExists).err = true ∧
      (signerconfigCmd (fun b => .ok ⟨b⟩) (fun _ _ _ => .ok [9]) true "ou"
        wSignerExists).world = wSignerExists) ∧
    signerconfigCmd (fun b => .ok ⟨b⟩) (fun _ _ _ => .error "nope") false ""
        wSignerExists = ⟨some (.generatorError "nope"), wSignerExists⟩ :=
  ⟨C2_signerconfig_amended.1 (fun b => .ok ⟨b⟩) (fun _ _ _ => .ok [9]) true "ou"
      wSignerExists ⟨[1], ⟨[2]⟩⟩ [9] rfl rfl (by decide) (by decide),
    C2_signerconfig_amended.2 (fun b => .ok ⟨b⟩) (fun _ _ _ => .error "nope")
      false "" wSignerExists ⟨[1], ⟨[2]⟩⟩ "nope" rfl rfl⟩

theorem lookupEntry_cons_cases (q : FPath) (e0 : Entry) (l : List (FPath × Entry))
    (d : List FPath) (p : FPath) (e : Entry)
    (h : lookupEntry ⟨(q, e0) :: l, d⟩ p = some e) :
    e = e0 ∨ lookupEntry ⟨l, d⟩ p = some e := by
  rw [lookupEntry_cons] at h
  by_cases hq : q = p
  · rw [if_pos hq] at h
    cases h
    exact Or.inl rfl
  · rw [if_neg hq] at h
    exact Or.inr h

/-- Counterexample to C3 as stated: a successful `ca-keygen` run creates its
directories with mode `0o770` — group bits `rwx` (7), not owner-only — and
its files with mode `0o640` — group read bit set (4), not owner-only. -/
theorem C3_counterexample :
    caKeygenCmd (.ok ([1], [2])) ⟨[], []⟩ = ⟨none, wProvisioned⟩ ∧
    lookupEntry wProvisioned IdemixDirIssuer = some (.dir 0o770) ∧
    0o770 / 8 % 8 = 7 ∧
    lookupEntry wProvisioned iskFilePath = some (.file 0o640 [1]) ∧
    0o640 / 8 % 8 = 4 := by
  refine ⟨by decide, by decide, by decide, by decide, by decide⟩

/-- C3 amended: every filesystem entry visible after a successful run is
either an entry that was already visible before the run, or a directory
created with mode `0o770` (owner and group `rwx`), or a file created with
mode `0o640` (owner `rw`, group `r`); both modes grant nothing to others
(low three bits zero). -/
theorem C3_permissions_amended :
    (∀ (w w' : World) (isk ipk : List Nat),
      wellFormedW w = true →
      lookupEntry w IdemixDirIssuer = none →
      lookupEntry w IdemixConfigDirMsp = none →
      caKeygenCmd (.ok (isk, ipk)) w = ⟨none, w'⟩ →
      ∀ p e, lookupEntry w' p = some e →
        lookupEntry w p = some e ∨ e = .dir 0o770 ∨ ∃ c, e = .file 0o640 c) ∧
    (∀ (um : List Nat → Except String IssuerPublicKey)
        (gen : Bool → String → IssuerKey → Except String (List Nat))
        (a : Bool) (ou : String) (w w' : World),
      wellFormedW w = true →
      signerconfigCmd um gen a ou w = ⟨none, w'⟩ →
      ∀ p e, lookupEntry w' p = some e →
        lookupEntry w p = some e ∨ e = .dir 0o770 ∨ ∃ c, e = .file 0o640 c) ∧
    0o770 % 8 = 0 ∧ 0o640 % 8 = 0 := by
  refine ⟨?_, ?_, by decide, by decide⟩
  · intro w w' isk ipk hwf hca hmsp h p e hp
    have hEq := caKeygen_fresh_build isk ipk w w' hwf hca hmsp h
    subst hEq
    rcases lookupEntry_cons_cases _ _ _ _ _ _ hp with he | hp
    · exact Or.inr (Or.inr ⟨ipk, he⟩)
    rcases lookupEntry_cons_cases _ _ _ _ _ _ hp with he | hp
    · exact Or.inr (Or.inr ⟨ipk, he⟩)
    rcases lookupEntry_cons_cases _ _ _ _ _ _ hp with he | hp
    · exact Or.inr (Or.inr ⟨isk, he⟩)
    rcases lookupEntry_cons_cases _ _ _ _ _ _ hp with he | hp
    · exact Or.inr (Or.inl he)
    rcases lookupEntry_cons_cases _ _ _ _ _ _ hp with he | hp
    · exact Or.inr (Or.inl he)
    exact Or.inl hp
  · intro um gen a ou w w' hwf h p e hp
    obtain ⟨key, config, q, hread, hgen, hluser, hduser, hdsf, hEq, hq⟩ :=
      signerconfig_success_shape um gen a ou w w' h
    have hsf : lookupEntry w signerFilePath = none := by
      apply wellFormed_child_none w _ hwf (by decide)
      have hdl : signerFilePath.dropLast = IdemixConfigDirUser := by decide
      rw [hdl]
      simp [isDirAt, hluser]
    have hq640 : q = 0o640 := by
      rcases hq with ⟨hq, -⟩ | ⟨old, hold⟩
      · exact hq
      · rw [hsf] at hold
        cases hold
    subst hq640
    subst hEq
    rcases lookupEntry_cons_cases _ _ _ _ _ _ hp with he | hp
    · exact Or.inr (Or.inr ⟨config, he⟩)
    rcases lookupEntry_cons_cases _ _ _ _ _ _ hp with he | hp
    · exact Or.inr (Or.inl he)
    exact Or.inl hp

/-- Witness for the amended C3 at concrete inputs. -/
theorem C3_permissions_amended_witness :
    (wellFormedW (⟨[], []⟩ : World) = true ∧
      lookupEntry (⟨[], []⟩ : World) IdemixDirIssuer = none ∧
      lookupEntry (⟨[], []⟩ : World) IdemixConfigDirMsp = none ∧
      caKeygenCmd (.ok ([1], [2])) ⟨[], []⟩ = ⟨none, wProvisioned⟩ ∧
      lookupEntry wProvisioned iskFilePath = some (.file 0o640 [1])) ∧
    (lookupEntry (⟨[], []⟩ : World) iskFilePath = some (.file 0o640 [1]) ∨
      (Entry.file 0o640 [1] : Entry) = .dir 0o770 ∨
      ∃ c, (Entry.file 0o640 [1] : Entry) = .file 0o640 c) :=
  ⟨⟨by decide, by decide, by decide, by decide, by decide⟩,
    C3_permissions_amended.1 ⟨[], []⟩ wProvisioned [1] [2] (by decide) (by decide)
      (by decide) (by decide) iskFilePath (.file 0o640 [1]) (by decide)⟩

theorem readFileFS_of_lookup (w : World) (p : FPath) (q : Nat) (c : List Nat)
    (hd : w.denied.contains p = false) (hl : lookupEntry w p = some (.file q c)) :
    readFileFS w p = .ok c := by
  have hm : p ∉ w.denied := by simpa using hd
  simp [readFileFS, hm, hl]

/-- C4: round-trip law.  After any successful `ca-keygen` run that persisted
generator output `(isk, ipk)`, reconstructing the issuer key with
`readIssuerKey` (against any codec satisfying the spec contract that a
successfully deserialized record reserializes to the input bytes, and which
accepts the generator's bytes) returns exactly the pair of the secret bytes
written and a public-key record whose serialized form is the generator's
serialized public key. -/
theorem C4_roundtrip (w w' : World) (isk ipk : List Nat)
    (um : List Nat → Except String IssuerPublicKey) (k : IssuerPublicKey)
    (hrun : caKeygenCmd (.ok (isk, ipk)) w = ⟨none, w'⟩)
    (hcodec : ∀ b kk, um b = .ok kk → kk.serialized = b)
    (hum : um ipk = .ok k) :
    readIssuerKey um w' = .ok ⟨isk, k⟩ ∧ k.serialized = ipk := by
  obtain ⟨p3, p4, p5, he, hdd, hl1, hl2, hc1, hc2, hc3, hc4, hc5, h3, h4, h5⟩ :=
    caKeygen_success_shape isk ipk w w' hrun
  have ne_mipk_isk : mspIpkFilePath ≠ iskFilePath := by decide
  have ne_ipk_isk : ipkFilePath ≠ iskFilePath := by decide
  have ne_mipk_ipk : mspIpkFilePath ≠ ipkFilePath := by decide
  have wEq : w' = ⟨(mspIpkFilePath, .file p5 ipk) :: (ipkFilePath, .file p4 ipk) ::
      (iskFilePath, .file p3 isk) :: (IdemixConfigDirMsp, .dir 0o770) ::
      (IdemixDirIssuer, .dir 0o770) :: w.entries, w.denied⟩ := by
    calc w' = ⟨w'.entries, w'.denied⟩ := rfl
      _ = _ := by rw [he, hdd]
  subst wEq
  have hre1 : readFileFS ⟨(mspIpkFilePath, .file p5 ipk) :: (ipkFilePath, .file p4 ipk) ::
      (iskFilePath, .file p3 isk) :: (IdemixConfigDirMsp, .dir 0o770) ::
      (IdemixDirIssuer, .dir 0o770) :: w.entries, w.denied⟩ iskFilePath = .ok isk := by
    refine readFileFS_of_lookup _ _ p3 _ ?_ ?_
    · exact hc3
    · rw [lookupEntry_skip _ _ _ _ _ ne_mipk_isk, lookupEntry_skip _ _ _ _ _ ne_ipk_isk,
        lookupEntry_cons, if_pos rfl]
  have hre2 : readFileFS ⟨(mspIpkFilePath, .file p5 ipk) :: (ipkFilePath, .file p4 ipk) ::
      (iskFilePath, .file p3 isk) :: (IdemixConfigDirMsp, .dir 0o770) ::
      (IdemixDirIssuer, .dir 0o770) :: w.entries, w.denied⟩ ipkFilePath = .ok ipk := by
    refine readFileFS_of_lookup _ _ p4 _ ?_ ?_
    · exact hc4
    · rw [lookupEntry_skip _ _ _ _ _ ne_mipk_ipk, lookupEntry_cons, if_pos rfl]
  refine ⟨?_, hcodec _ _ hum⟩
  simp only [readIssuerKey, hre1, hre2, hum]

/-- Witness for C4 at concrete inputs, with the identity blob codec. -/
theorem C4_roundtrip_witness :
    readIssuerKey (fun b => .ok ⟨b⟩) wProvisioned = .ok ⟨[1], ⟨[2]⟩⟩ ∧
    IssuerPublicKey.serialized ⟨[2]⟩ = [2] :=
  C4_roundtrip ⟨[], []⟩ wProvisioned [1] [2] (fun b => .ok ⟨b⟩) ⟨[2]⟩ (by decide)
    (fun b kk hk => by cases hk; rfl) rfl

/-- C5: a successful `ca-keygen` run from a well-formed state where neither
root exists creates exactly five entries — the two root directories and
three files: the secret key under the issuer root and the serialized public
key under both roots — and nothing else; the two `IssuerPublicKey` files
hold byte-identical contents (both are `ipk`). -/
theorem C5_exactly_three_files (w w' : World) (isk ipk : List Nat)
    (hwf : wellFormedW w = true)
    (hca : lookupEntry w IdemixDirIssuer = none)
    (hmsp : lookupEntry w IdemixConfigDirMsp = none)
    (h : caKeygenCmd (.ok (isk, ipk)) w = ⟨none, w'⟩) :
    w' = ⟨(mspIpkFilePath, .file 0o640 ipk) :: (ipkFilePath, .file 0o640 ipk) ::
        (iskFilePath, .file 0o640 isk) :: (IdemixConfigDirMsp, .dir 0o770) ::
        (IdemixDirIssuer, .dir 0o770) :: w.entries, w.denied⟩ ∧
      lookupEntry w' ipkFilePath = lookupEntry w' mspIpkFilePath := by
  have hEq := caKeygen_fresh_build isk ipk w w' hwf hca hmsp h
  refine ⟨hEq, ?_⟩
  subst hEq
  have ne_mipk_ipk : mspIpkFilePath ≠ ipkFilePath := by decide
  rw [lookupEntry_skip _ _ _ _ _ ne_mipk_ipk, lookupEntry_cons, if_pos rfl,
    lookupEntry_cons, if_pos rfl]

/-- Witness for C5 at concrete inputs. -/
theorem C5_exactly_three_files_witness :
    (wellFormedW (⟨[], []⟩ : World) = true ∧
      caKeygenCmd (.ok ([1], [2])) ⟨[], []⟩ = ⟨none, wProvisioned⟩) ∧
    wProvisioned = ⟨(mspIpkFilePath, .file 0o640 [2]) :: (ipkFilePath, .file 0o640 [2]) ::
        (iskFilePath, .file 0o640 [1]) :: (IdemixConfigDirMsp, .dir 0o770) ::
        (IdemixDirIssuer, .dir 0o770) :: [], []⟩ ∧
      lookupEntry wProvisioned ipkFilePath = lookupEntry wProvisioned mspIpkFilePath :=
  ⟨⟨by decide, by decide⟩,
    C5_exactly_three_files ⟨[], []⟩ wProvisioned [1] [2] (by decide) (by decide)
      (by decide) (by decide)⟩

/-- Whether a file read succeeded (a file "can be opened"). -/
def readOk (r : Except String (List Nat)) : Bool :=
  match r with
  | .ok _ => true
  | .error _ => false

/-- C6: whenever the issuer secret-key file or the issuer public-key file
cannot be opened — in particular after no prior `ca-keygen` run — the
`signerconfig` workflow fails with a `MissingKeyMaterialError` and performs
no further step: the state is unchanged and the external generator's result
is irrelevant (the conclusion holds for every generator and codec). -/
theorem C6_missing_key_material
    (um : List Nat → Except String IssuerPublicKey)
    (gen : Bool → String → IssuerKey → Except String (List Nat))
    (a : Bool) (ou : String) (w : World)
    (h : readOk (readFileFS w iskFilePath) = false ∨
      readOk (readFileFS w ipkFilePath) = false) :
    isMissingKeyErr (signerconfigCmd um gen a ou w).err = true ∧
      (signerconfigCmd um gen a ou w).world = w := by
  cases hre1 : readFileFS w iskFilePath with
  | error e =>
    simp only [signerconfigCmd, readIssuerKey, hre1]
    exact ⟨rfl, trivial⟩
  | ok c =>
    cases hre2 : readFileFS w ipkFilePath with
    | error e =>
      simp only [signerconfigCmd, readIssuerKey, hre1, hre2]
      exact ⟨rfl, trivial⟩
    | ok c2 =>
      rcases h with h | h
      · rw [hre1] at h
        simp [readOk] at h
      · rw [hre2] at h
        simp [readOk] at h

/-- Witness for C6: `signerconfig` in the empty state (no prior run). -/
theorem C6_missing_key_material_witness :
    readOk (readFileFS ⟨[], []⟩ iskFilePath) = false ∧
    isMissingKeyErr (signerconfigCmd (fun b => .ok ⟨b⟩) (fun _ _ _ => .ok [7])
        false "" ⟨[], []⟩).err = true ∧
      (signerconfigCmd (fun b => .ok ⟨b⟩) (fun _ _ _ => .ok [7])
        false "" ⟨[], []⟩).world = ⟨[], []⟩ :=
  ⟨by decide,
    C6_missing_key_material (fun b => .ok ⟨b⟩) (fun _ _ _ => .ok [7]) false ""
      ⟨[], []⟩ (Or.inl (by decide))⟩

/-- One state extends another when it differs only by newly added entries:
nothing already present has been removed or altered in the underlying list. -/
def extendsW (w w' : World) : Prop :=
  ∃ new, w'.entries = new ++ w.entries ∧ w'.denied = w.denied

theorem extendsW_refl (w : World) : extendsW w w := ⟨[], rfl, rfl⟩

theorem extendsW_trans (w1 w2 w3 : World) (h1 : extendsW w1 w2)
    (h2 : extendsW w2 w3) : extendsW w1 w3 := by
  obtain ⟨n1, e1, d1⟩ := h1
  obtain ⟨n2, e2, d2⟩ := h2
  exact ⟨n2 ++ n1, by rw [e2, e1, List.append_assoc], by rw [d2, d1]⟩

theorem mkdirFS_extends (w : World) (p : FPath) (perm : Nat) (w' : World)
    (h : mkdirFS w p perm = .ok w') : extendsW w w' := by
  obtain ⟨-, -, e⟩ := mkdirFS_ok _ _ _ _ h
  exact ⟨[(p, .dir perm)], by rw [e]; rfl, by rw [e]⟩

theorem writeFileFS_extends (w : World) (p : FPath) (c : List Nat) (perm : Nat)
    (w' : World) (h : writeFileFS w p c perm = .ok w') : extendsW w w' := by
  obtain ⟨q, e, -, -⟩ := writeFileFS_ok _ _ _ _ _ h
  exact ⟨[(p, .file q c)], by rw [e]; rfl, by rw [e]⟩

theorem caKeygen_extends (gen : Except String (List Nat × List Nat)) (w : World) :
    extendsW w (caKeygenCmd gen w).world := by
  cases gen with
  | error e => exact extendsW_refl w
  | ok pair =>
    obtain ⟨isk, ipk⟩ := pair
    simp only [caKeygenCmd, step]
    split
    · exact extendsW_refl w
    · split
      · exact extendsW_refl w
      · split
        next e heq => exact extendsW_refl w
        next w1 heq1 =>
          have hx1 := mkdirFS_extends _ _ _ _ heq1
          split
          next e heq => exact hx1
          next w2 heq2 =>
            have hx2 := extendsW_trans _ _ _ hx1 (mkdirFS_extends _ _ _ _ heq2)
            split
            next e heq => exact hx2
            next w3 heq3 =>
              have hx3 := extendsW_trans _ _ _ hx2 (writeFileFS_extends _ _ _ _ _ heq3)
              split
              next e heq => exact hx3
              next w4 heq4 =>
                have hx4 := extendsW_trans _ _ _ hx3 (writeFileFS_extends _ _ _ _ _ heq4)
                split
                next e heq => exact hx4
                next w5 heq5 =>
                  exact extendsW_trans _ _ _ hx4 (writeFileFS_extends _ _ _ _ _ heq5)

theorem signerconfig_extends (um : List Nat → Except String IssuerPublicKey)
    (gen : Bool → String → IssuerKey → Except String (List Nat))
    (a : Bool) (ou : String) (w : World) :
    extendsW w (signerconfigCmd um gen a ou w).world := by
  simp only [signerconfigCmd, step]
  split
  · exact extendsW_refl w
  · split
    · exact extendsW_refl w
    · split
      · exact extendsW_refl w
      · split
        next e heq => exact extendsW_refl w
        next w1 heq1 =>
          have hx1 := mkdirFS_extends _ _ _ _ heq1
          split
          next e heq => exact hx1
          next w2 heq2 =>
            exact extendsW_trans _ _ _ hx1 (writeFileFS_extends _ _ _ _ _ heq2)

/-- C7: every error is fatal to the invocation.  (1) A run is reported
successful (exit 0) exactly when no error occurred, and (2) on an error the
run stops, prints exactly that error's message and exits 1.  (3,4) Both
mutating workflows only ever add entries on top of the prior state — on an
error the state so far is left in place, nothing is retried, removed or
rolled back.  (5,6) A run reported successful completed all its steps: all
its artifact files are present afterwards. -/
theorem C7_fail_fast :
    (∀ o : Outcome, (outcomeRun o).exitCode = 0 ↔ o.err = none) ∧
    (∀ (o : Outcome) (e : Err), o.err = some e →
      outcomeRun o = ⟨o.world, 1, [e.message]⟩) ∧
    (∀ (gen : Except String (List Nat × List Nat)) (w : World),
      extendsW w (caKeygenCmd gen w).world) ∧
    (∀ (um : List Nat → Except String IssuerPublicKey)
        (gen : Bool → String → IssuerKey → Except String (List Nat))
        (a : Bool) (ou : String) (w : World),
      extendsW w (signerconfigCmd um gen a ou w).world) ∧
    (∀ (isk ipk : List Nat) (w w' : World),
      caKeygenCmd (.ok (isk, ipk)) w = ⟨none, w'⟩ →
      (lookupEntry w' iskFilePath).isSome = true ∧
      (lookupEntry w' ipkFilePath).isSome = true ∧
      (lookupEntry w' mspIpkFilePath).isSome = true) ∧
    (∀ (um : List Nat → Except String IssuerPublicKey)
        (gen : Bool → String → IssuerKey → Except String (List Nat))
        (a : Bool) (ou : String) (w w' : World),
      signerconfigCmd um gen a ou w = ⟨none, w'⟩ →
      (lookupEntry w' signerFilePath).isSome = true) := by
  refine ⟨?_, ?_, caKeygen_extends, signerconfig_extends, ?_, ?_⟩
  · intro o
    cases ho : o.err with
    | none => simp [outcomeRun, ho]
    | some e => simp [outcomeRun, ho]
  · intro o e ho
    simp [outcomeRun, ho]
  · intro isk ipk w w' h
    obtain ⟨p3, p4, p5, he, hdd, hl1, hl2, hc1, hc2, hc3, hc4, hc5, h3, h4, h5⟩ :=
      caKeygen_success_shape isk ipk w w' h
    have ne_mipk_isk : mspIpkFilePath ≠ iskFilePath := by decide
    have ne_ipk_isk : ipkFilePath ≠ iskFilePath := by decide
    have ne_mipk_ipk : mspIpkFilePath ≠ ipkFilePath := by decide
    have wEq : w' = ⟨(mspIpkFilePath, .file p5 ipk) :: (ipkFilePath, .file p4 ipk) ::
        (iskFilePath, .file p3 isk) :: (IdemixConfigDirMsp, .dir 0o770) ::
        (IdemixDirIssuer, .dir 0o770) :: w.entries, w.denied⟩ := by
      calc w' = ⟨w'.entries, w'.denied⟩ := rfl
        _ = _ := by rw [he, hdd]
    subst wEq
    refine ⟨?_, ?_, ?_⟩
    · rw [lookupEntry_skip _ _ _ _ _ ne_mipk_isk,
        lookupEntry_skip _ _ _ _ _ ne_ipk_isk, lookupEntry_cons, if_pos rfl]
      rfl
    · rw [lookupEntry_skip _ _ _ _ _ ne_mipk_ipk, lookupEntry_cons, if_pos rfl]
      rfl
    · rw [lookupEntry_cons, if_pos rfl]
      rfl
  · intro um gen a ou w w' h
    obtain ⟨key, config, q, hread, hgen, hluser, hduser, hdsf, hEq, hq⟩ :=
      signerconfig_success_shape um gen a ou w w' h
    subst hEq
    rw [lookupEntry_cons, if_pos rfl]
    rfl

/-- Witness for C7 at concrete inputs. -/
theorem C7_fail_fast_witness :
    ((outcomeRun ⟨some (.ioError "boom"), ⟨[], []⟩⟩).exitCode = 0 ↔
      (some (Err.ioError "boom") : Option Err) = none) ∧
    outcomeRun ⟨some (.ioError "boom"), ⟨[], []⟩⟩ = ⟨⟨[], []⟩, 1, ["boom"]⟩ ∧
    extendsW wCaExists (caKeygenCmd (.ok ([1], [2])) wCaExists).world ∧
    ((lookupEntry wProvisioned iskFilePath).isSome = true ∧
      (lookupEntry wProvisioned ipkFilePath).isSome = true ∧
      (lookupEntry wProvisioned mspIpkFilePath).isSome = true) :=
  ⟨C7_fail_fast.1 ⟨some (.ioError "boom"), ⟨[], []⟩⟩,
    C7_fail_fast.2.1 ⟨some (.ioError "boom"), ⟨[], []⟩⟩ (.ioError "boom") rfl,
    C7_fail_fast.2.2.1 (.ok ([1], [2])) wCaExists,
    C7_fail_fast.2.2.2.2.1 [1] [2] ⟨[], []⟩ wProvisioned (by decide)⟩

/-- C8: the `version` command is a pure query: for every collaborator set
and every prior filesystem state it leaves the state untouched, exits with
status 0, and prints the (non-empty) static version string. -/
theorem C8_version_pure (c : Collaborators) (w : World) :
    mainRun c .version w = ⟨w, 0, [getVersionInfo]⟩ ∧ getVersionInfo ≠ "" :=
  ⟨rfl, by decide⟩

/-- C9: `checkDirectoryNotExists` fails (with an `AlreadyProvisionedError`)
exactly when `os.Stat` succeeds; the stat succeeds exactly on an accessible
existing entry of either kind (file or directory); and on any stat error —
including a permission error on an existing path — the check passes, letting
the workflow proceed to the creation step. -/
theorem C9_checkDir_iff_stat (w : World) (p : FPath) (m : String) :
    ((checkDirectoryNotExists w p m).isSome = true ↔ stat w p = .ok) ∧
    (stat w p = .ok ↔
      (w.denied.contains p = false ∧ (lookupEntry w p).isSome = true)) ∧
    (∀ e, checkDirectoryNotExists w p m = some e → e = .alreadyProvisioned m) ∧
    (w.denied.contains p = true → checkDirectoryNotExists w p m = none) := by
  refine ⟨?_, stat_ok_iff w p, ?_, ?_⟩
  · unfold checkDirectoryNotExists
    by_cases hs : stat w p = .ok
    · rw [if_pos hs]
      simp [hs]
    · rw [if_neg hs]
      simp [hs]
  · intro e he
    unfold checkDirectoryNotExists at he
    split at he
    · cases he
      rfl
    · cases he
  · intro hd
    apply checkDir_none_of_stat
    unfold stat
    rw [hd]
    intro hfalse
    cases hfalse

/-- Witness for C9: an existing plain file triggers the failure; an
existing but stat-denied directory is treated as absent and passes. -/
theorem C9_checkDir_iff_stat_witness :
    (checkDirectoryNotExists ⟨[(["f"], .file 0o640 [1])], []⟩ ["f"] "m").isSome = true ∧
    checkDirectoryNotExists ⟨[(["g"], .dir 0o770)], [["g"]]⟩ ["g"] "m" = none :=
  ⟨(C9_checkDir_iff_stat ⟨[(["f"], .file 0o640 [1])], []⟩ ["f"] "m").1.mpr (by decide),
    (C9_checkDir_iff_stat ⟨[(["g"], .dir 0o770)], [["g"]]⟩ ["g"] "m").2.2.2 (by decide)⟩

/-- C10: `readIssuerKey` performs no pairing or consistency check between
the two components: whenever both files are readable, the secret-key bytes
are returned exactly as stored, however arbitrary and unrelated to the
public key they are, and the only validation performed is deserialization of
the public-key bytes, whose failure (and nothing else) yields a
`MalformedKeyError`. -/
theorem C10_readIssuerKey_no_pairing_check :
    (∀ (um : List Nat → Except String IssuerPublicKey) (w : World)
        (iskBytes ipkBytes : List Nat) (k : IssuerPublicKey),
      readFileFS w iskFilePath = .ok iskBytes →
      readFileFS w ipkFilePath = .ok ipkBytes →
      um ipkBytes = .ok k →
      readIssuerKey um w = .ok ⟨iskBytes, k⟩) ∧
    (∀ (um : List Nat → Except String IssuerPublicKey) (w : World)
        (iskBytes ipkBytes : List Nat) (m : String),
      readFileFS w iskFilePath = .ok iskBytes →
      readFileFS w ipkFilePath = .ok ipkBytes →
      um ipkBytes = .error m →
      readIssuerKey um w = .error (.malformedKey m)) := by
  constructor
  · intro um w iskBytes ipkBytes k h1 h2 h3
    simp only [readIssuerKey, h1, h2, h3]
  · intro um w iskBytes ipkBytes m h1 h2 h3
    simp only [readIssuerKey, h1, h2, h3]

/-- A provisioned-looking state whose secret-key file holds junk unrelated
to the public key. -/
def wMismatched : World :=
  ⟨[(iskFilePath, .file 0o640 [42, 43]), (ipkFilePath, .file 0o640 [2]),
    (IdemixDirIssuer, .dir 0o770)], []⟩

/-- Witness for C10: unrelated secret bytes are returned as-is, and a codec
failure is reported as a malformed key. -/
theorem C10_readIssuerKey_no_pairing_check_witness :
    readIssuerKey (fun b => .ok ⟨b⟩) wMismatched = .ok ⟨[42, 43], ⟨[2]⟩⟩ ∧
    readIssuerKey (fun _ => .error "bad bytes") wMismatched =
      .error (.malformedKey "bad bytes") :=
  ⟨C10_readIssuerKey_no_pairing_check.1 (fun b => .ok ⟨b⟩) wMismatched [42, 43] [2]
      ⟨[2]⟩ rfl rfl rfl,
    C10_readIssuerKey_no_pairing_check.2 (fun _ => .error "bad bytes") wMismatched
      [42, 43] [2] "bad bytes" rfl rfl rfl⟩

/-- A state in which the issuer root exists but `os.Stat` on it is denied. -/
def wDeniedCa : World := ⟨[(IdemixDirIssuer, .dir 0o770)], [IdemixDirIssuer]⟩

/-- Counterexample to C1 as stated: in a state where the issuer root `ca`
exists but `os.Stat` on it errors (e.g. permission denial), the existence
check passes — stat errors are treated as absence — and the run then fails
at `os.Mkdir` with an I/O error, not with `AlreadyProvisionedError`. -/
theorem C1_counterexample :
    (lookupEntry wDeniedCa IdemixDirIssuer).isSome = true ∧
    caKeygenCmd (.ok ([1], [2])) wDeniedCa =
      ⟨some (.ioError "mkdir: permission denied"), wDeniedCa⟩ ∧
    isAlreadyProvisionedErr (caKeygenCmd (.ok ([1], [2])) wDeniedCa).err = false := by
  refine ⟨by decide, by decide, by decide⟩
